import Mathlib

/-!
Shallow embedding of the Scubapro G2 device driver (src/src/scubapro_g2.c)
from libdivecomputer, together with theorems checking the natural-language
specification against it.

Modelling conventions:
- C byte buffers become `List Nat` (each element a byte value).
- The USB-HID transport is modelled by explicit streams of outcomes: a list
  of statuses for successive dc_usbhid_write calls and a list of
  `ReadResult`s for successive dc_usbhid_read calls.  Exhausting a stream
  yields a distinguished `starved` outcome, a pure modelling artifact (the
  real transport blocks forever); no theorem's conclusion depends on it.
- Event emission (progress/clock/devinfo) is modelled as an accumulated log.
- Pointer reads are bounds-checked through `readBytes`, which returns `none`
  for an access outside the buffer; reaching such an access is reported by
  the distinguished `ExtractOutcome.oobRead` outcome (undefined behavior in
  the C source).
- The extraction loop of `scubapro_g2_extract_dives` decreases its cursor by
  at least one per iteration, so running it with fuel equal to the initial
  cursor is exact; the fuel parameter only makes the recursion structural.
-/

/-- Status codes of libdivecomputer used by this driver (dc_status_t). -/
inductive DcStatus where
  | success
  | invalidargs
  | nomemory
  | ioerr
  | protocol
  | dataformat
deriving DecidableEq, Inhabited

/-- array_uint32_le from array.h: little-endian 32-bit decode of 4 bytes. -/
def array_uint32_le (l : List Nat) : Nat :=
  l.getD 0 0 + 256 * l.getD 1 0 + 65536 * l.getD 2 0 + 16777216 * l.getD 3 0

/-- Truncation to the 32-bit unsigned range: the wrapping arithmetic of the
C type `unsigned int` in which the driver computes its comparisons. -/
def u32 (n : Nat) : Nat := n % 4294967296

/-- PACKET_SIZE constant of scubapro_g2.c. -/
def PACKET_SIZE : Nat := 64

/-- Result of one dc_usbhid_read call: the status it returned, the number of
bytes it reported transferred, and the packet contents it produced. -/
structure ReadResult where
  status : DcStatus
  transferred : Nat
  packet : List Nat
deriving DecidableEq, Inhabited

/-- The transport handle: streams of outcomes for successive write and read
calls on the USB-HID connection. -/
structure UsbHid where
  writeResults : List DcStatus
  reads : List ReadResult
deriving DecidableEq, Inhabited

/-- Outcome of receive_data: assembled bytes and the unconsumed read stream
on success, the unconsumed stream on failure (the C function returns -1), or
`starved` when the modelled read stream is exhausted. -/
inductive RecvOutcome where
  | ok (bytes : List Nat) (rest : List ReadResult)
  | fail (rest : List ReadResult)
  | starved
deriving DecidableEq, Inhabited

/-- receive_data from scubapro_g2.c: read fixed-size packets until `size`
payload bytes are assembled.  Each packet's first byte declares its payload
length; a failed or short read, or a declared length of at least
PACKET_SIZE, aborts; a declared length above the remaining space is clamped
to it. -/
def receive_data : List ReadResult → Nat → RecvOutcome
  | rest, 0 => .ok [] rest
  | [], _ + 1 => .starved
  | r :: rs, size + 1 =>
    if r.status ≠ .success then .fail rs
    else if r.transferred ≠ PACKET_SIZE then .fail rs
    else
      let len0 := r.packet.headD 0
      if PACKET_SIZE ≤ len0 then .fail rs
      else
        let len := min len0 (size + 1)
        match receive_data rs (size + 1 - len) with
        | .ok bytes rest => .ok ((r.packet.drop 1).take len ++ bytes) rest
        | .fail rest => .fail rest
        | .starved => .starved

/-- Outcome of scubapro_g2_transfer.  Each constructor carries the remaining
transport streams and the log of frames passed to dc_usbhid_write. -/
inductive TRes where
  | ok (answer : List Nat) (hid : UsbHid) (wrote : List (List Nat))
  | err (s : DcStatus) (hid : UsbHid) (wrote : List (List Nat))
  | starved (wrote : List (List Nat))
deriving DecidableEq, Inhabited

/-- The frames a transfer outcome wrote to the transport. -/
def TRes.written : TRes → List (List Nat)
  | .ok _ _ w => w
  | .err _ _ w => w
  | .starved w => w

/-- scubapro_g2_transfer from scubapro_g2.c: reject commands of PACKET_SIZE
bytes or more before any I/O, otherwise write one frame consisting of the
command length byte followed by the command, then receive the answer. -/
def scubapro_g2_transfer (hid : UsbHid) (command : List Nat) (asize : Nat) : TRes :=
  if PACKET_SIZE ≤ command.length then .err .invalidargs hid []
  else
    match hid.writeResults with
    | [] => .starved []
    | w :: ws =>
      let frame := command.length :: command
      if w ≠ .success then .err w ⟨ws, hid.reads⟩ [frame]
      else
        match receive_data hid.reads asize with
        | .ok bytes rest => .ok bytes ⟨ws, rest⟩ [frame]
        | .fail rest => .err .ioerr ⟨ws, rest⟩ [frame]
        | .starved => .starved [frame]

/-- The mutable state of scubapro_g2_device_t that the modelled operations
read and write: the fingerprint cursor and the clock calibration pair. -/
structure G2Device where
  timestamp : Nat
  devtime : Nat
  systime : Int
deriving DecidableEq, Inhabited

/-- Events emitted through device_event_emit during a dump. -/
inductive Event where
  | progress (current maximum : Nat)
  | clock (systime : Int) (devtime : Nat)
  | devinfo (model firmware serial : Nat)
deriving DecidableEq, Inhabited

/-- The (current, maximum) pairs of the progress events of a log, in order. -/
def progressEvents : List Event → List (Nat × Nat)
  | [] => []
  | Event.progress c m :: es => (c, m) :: progressEvents es
  | Event.clock _ _ :: es => progressEvents es
  | Event.devinfo _ _ _ :: es => progressEvents es

/-- Result of scubapro_g2_device_dump: final status, buffer contents, device
state, event log and write log, plus the decoded length-negotiation reply,
the decoded bulk-handshake reply, and whether the bulk read was attempted
(the last three are observability instrumentation of the run). -/
structure DumpResult where
  status : DcStatus
  buffer : List Nat
  device : G2Device
  events : List Event
  wrote : List (List Nat)
  negotiated : Option Nat
  totalReply : Option Nat
  bulkAttempted : Bool
deriving DecidableEq, Inhabited

/-- Bytes 1..8 of the 9-byte command template of the dump: the little-endian
fingerprint timestamp followed by the fixed trailer 0x10 0x27 0x00 0x00. -/
def commandBody (timestamp : Nat) : List Nat :=
  [timestamp % 256, timestamp / 256 % 256, timestamp / 65536 % 256,
   timestamp / 16777216 % 256, 0x10, 0x27, 0, 0]

/-- scubapro_g2_device_dump from scubapro_g2.c.  Arguments beyond the device
state and transport: `now` is the value dc_datetime_now returns, `m0` is the
maximum field of EVENT_PROGRESS_INITIALIZER (defined in device-private.h,
outside the given sources; no theorem depends on its value), `clearOk` and
`resizeOk` are the outcomes of dc_buffer_clear and dc_buffer_resize, and
`prior` is the buffer contents before the call.  Returns `none` only when a
modelled transport stream is exhausted. -/
def scubapro_g2_device_dump (device : G2Device) (hid : UsbHid) (now : Int) (m0 : Nat)
    (clearOk resizeOk : Bool) (prior : List Nat) : Option DumpResult :=
  if clearOk then
    let ev0 := [Event.progress 0 m0]
    match scubapro_g2_transfer hid [0x10] 1 with
    | .starved _ => none
    | .err s _ w1 => some ⟨s, [], device, ev0, w1, none, none, false⟩
    | .ok model hid1 w1 =>
      match scubapro_g2_transfer hid1 [0x14] 4 with
      | .starved _ => none
      | .err s _ w2 => some ⟨s, [], device, ev0, w1 ++ w2, none, none, false⟩
      | .ok serial hid2 w2 =>
        match scubapro_g2_transfer hid2 [0x1A] 4 with
        | .starved _ => none
        | .err s _ w3 => some ⟨s, [], device, ev0, w1 ++ w2 ++ w3, none, none, false⟩
        | .ok devtime hid3 w3 =>
          let device1 : G2Device :=
            { device with systime := now, devtime := array_uint32_le devtime }
          let ev1 := ev0 ++ [Event.progress 9 m0, Event.clock now device1.devtime,
                             Event.devinfo (model.headD 0) 0 (array_uint32_le serial)]
          match scubapro_g2_transfer hid3 (0xC6 :: commandBody device.timestamp) 4 with
          | .starved _ => none
          | .err s _ w4 =>
            some ⟨s, [], device1, ev1, w1 ++ w2 ++ w3 ++ w4, none, none, false⟩
          | .ok answer1 hid4 w4 =>
            let length := array_uint32_le answer1
            let maxp := 4 + 9 + (if length = 0 then 0 else length + 4)
            let ev2 := ev1 ++ [Event.progress 13 maxp]
            let wr4 := w1 ++ w2 ++ w3 ++ w4
            if length = 0 then
              some ⟨.success, [], device1, ev2, wr4, some length, none, false⟩
            else if resizeOk then
              match scubapro_g2_transfer hid4 (0xC4 :: commandBody device.timestamp) 4 with
              | .starved _ => none
              | .err s _ w5 =>
                some ⟨s, List.replicate length 0, device1, ev2, wr4 ++ w5,
                      some length, none, false⟩
              | .ok answer2 hid5 w5 =>
                let total := array_uint32_le answer2
                let ev3 := ev2 ++ [Event.progress 17 maxp]
                let wr5 := wr4 ++ w5
                if total = u32 (length + 4) then
                  match receive_data hid5.reads length with
                  | .starved => none
                  | .fail _ =>
                    some ⟨.ioerr, List.replicate length 0, device1, ev3, wr5,
                          some length, some total, true⟩
                  | .ok bytes _ =>
                    some ⟨.success, bytes, device1,
                          ev3 ++ [Event.progress (17 + length) maxp], wr5,
                          some length, some total, true⟩
                else
                  some ⟨.protocol, List.replicate length 0, device1, ev3, wr5,
                        some length, some total, false⟩
            else
              some ⟨.nomemory, [], device1, ev2, wr4, some length, none, false⟩
  else
    some ⟨.nomemory, prior, device, [], [], none, none, false⟩

/-- scubapro_g2_device_set_fingerprint from scubapro_g2.c: pure update of the
timestamp cursor, returning the status and the new cursor value. -/
def scubapro_g2_device_set_fingerprint (timestamp : Nat) (data : List Nat) :
    DcStatus × Nat :=
  if data.length ≠ 0 ∧ data.length ≠ 4 then (.invalidargs, timestamp)
  else if data.length ≠ 0 then (.success, array_uint32_le data)
  else (.success, 0)

/-- Bounds-checked read of `n` bytes at offset `off`: `none` when the range
is not entirely inside the buffer (an out-of-bounds access in the C code). -/
def readBytes (data : List Nat) (off n : Nat) : Option (List Nat) :=
  if off + n ≤ data.length then some ((data.drop off).take n) else none

/-- The 4-byte dive start marker of scubapro_g2_extract_dives. -/
def header : List Nat := [0xa5, 0xa5, 0x5a, 0x5a]

/-- The record length field: little-endian 32-bit value of the 4 bytes after
the marker at offset `c`, when those bytes are inside the buffer. -/
def lenAt (data : List Nat) (c : Nat) : Option Nat :=
  (readBytes data (c + 4) 4).map array_uint32_le

/-- One callback invocation of the extraction scan: start offset and length
of the record, and the payload and fingerprint views the callback got. -/
structure DiveRec where
  start : Nat
  len : Nat
  payload : List Nat
  fingerprint : List Nat
deriving DecidableEq, Inhabited

/-- Outcome of the extraction scan: a driver status, or a detected
out-of-bounds read of `n` bytes at offset `off` (undefined behavior in C). -/
inductive ExtractOutcome where
  | ok (s : DcStatus)
  | oobRead (off n : Nat)
deriving DecidableEq, Inhabited

/-- The while loop of scubapro_g2_extract_dives.  `previous` is the
exclusive upper bound of the unconsumed region and `current` the scan
cursor; the loop decrements the cursor, tests the 4 bytes there against the
marker, and on a match reads the length field, checks the record end
current + len, computed in 32-bit unsigned arithmetic as in the C source,
against `previous`, invokes the callback on the record and fingerprint
views, and
resumes 4 bytes below the marker.  `fuel` bounds the number of iterations;
the cursor strictly decreases each iteration, so fuel equal to the initial
cursor is exact.  The returned list records the callback invocations in
order. -/
def extractLoop (data : List Nat) (cb : List Nat → List Nat → Bool) :
    Nat → Nat → Nat → ExtractOutcome × List DiveRec
  | 0, _, _ => (.ok .success, [])
  | fuel + 1, previous, current =>
    if current = 0 then (.ok .success, [])
    else
      let c := current - 1
      match readBytes data c 4 with
      | none => (.oobRead c 4, [])
      | some w =>
        if w = header then
          match readBytes data (c + 4) 4 with
          | none => (.oobRead (c + 4) 4, [])
          | some lenBytes =>
            let len := array_uint32_le lenBytes
            if previous < u32 (c + len) then (.ok .dataformat, [])
            else
              match readBytes data c len, readBytes data (c + 8) 4 with
              | none, _ => (.oobRead c len, [])
              | some _, none => (.oobRead (c + 8) 4, [])
              | some payload, some fp =>
                if cb payload fp then
                  let r := extractLoop data cb fuel c (if 4 ≤ c then c - 4 else 0)
                  (r.1, ⟨c, len, payload, fp⟩ :: r.2)
                else (.ok .success, [⟨c, len, payload, fp⟩])
        else
          extractLoop data cb fuel previous c

/-- scubapro_g2_extract_dives from scubapro_g2.c: backward scan of the dump
for marker-delimited dive records, newest first. -/
def scubapro_g2_extract_dives (data : List Nat) (cb : List Nat → List Nat → Bool) :
    ExtractOutcome × List DiveRec :=
  let size := data.length
  let start := if 4 ≤ size then size - 4 else 0
  extractLoop data cb start size start

/-- The exclusive upper bound of the unconsumed region after the recorded
invocations: the last yielded record's start, or `previous` if none. -/
def prevAfter (previous : Nat) : List DiveRec → Nat
  | [] => previous
  | i :: is => prevAfter i.start is

/-- scubapro_g2_device_foreach from scubapro_g2.c: allocate a fresh buffer,
dump into it, and on success run the extraction scan over it.  `allocOk` is
the outcome of dc_buffer_new. -/
def scubapro_g2_device_foreach (device : G2Device) (hid : UsbHid) (now : Int) (m0 : Nat)
    (allocOk resizeOk : Bool) (cb : List Nat → List Nat → Bool) :
    Option (ExtractOutcome × List DiveRec) :=
  if allocOk then
    match scubapro_g2_device_dump device hid now m0 true resizeOk [] with
    | none => none
    | some r =>
      if r.status ≠ .success then some (.ok r.status, [])
      else some (scubapro_g2_extract_dives r.buffer cb)
  else some (.ok .nomemory, [])

/-- The composition the spec describes for foreach: perform a dump into a
fresh buffer and, exactly when it succeeds, run the extraction scan on that
buffer with the same callback; otherwise return the dump's error with no
callback invocations. -/
def foreachSpec (device : G2Device) (hid : UsbHid) (now : Int) (m0 : Nat)
    (allocOk resizeOk : Bool) (cb : List Nat → List Nat → Bool) :
    Option (ExtractOutcome × List DiveRec) :=
  if allocOk then
    (scubapro_g2_device_dump device hid now m0 true resizeOk []).map
      (fun r =>
        if r.status = .success then scubapro_g2_extract_dives r.buffer cb
        else (.ok r.status, ([] : List DiveRec)))
  else some (.ok .nomemory, [])

/-- A transfer never reports an error with the success status: every error
arm of scubapro_g2_transfer carries a non-success status. -/
theorem transfer_err_ne_success (hid : UsbHid) (c : List Nat) (a : Nat)
    (s : DcStatus) (hid2 : UsbHid) (w : List (List Nat))
    (h : scubapro_g2_transfer hid c a = .err s hid2 w) : s ≠ .success := by
  unfold scubapro_g2_transfer at h
  split at h
  · cases h; decide
  · split at h
    · cases h
    · split at h
      · next hw => cases h; exact hw
      · split at h
        · cases h
        · cases h; decide
        · cases h

/-- A successful transfer wrote exactly one frame: the command length byte
followed by the command. -/
theorem transfer_ok_written (hid : UsbHid) (c : List Nat) (a : Nat)
    (ans : List Nat) (hid2 : UsbHid) (w : List (List Nat))
    (h : scubapro_g2_transfer hid c a = .ok ans hid2 w) : w = [c.length :: c] := by
  unfold scubapro_g2_transfer at h
  split at h
  · cases h
  · split at h
    · cases h
    · split at h
      · cases h
      · split at h
        · cases h; rfl
        · cases h
        · cases h

/-- Claim C7: set_fingerprint with zero bytes resets the cursor to 0 and
succeeds, with exactly 4 bytes adopts their little-endian value as the new
cursor and succeeds, and with any other length returns InvalidArgument and
leaves the cursor at its prior value; the modelled operation is pure, so it
performs no I/O. -/
theorem set_fingerprint_cases :
    ∀ timestamp data,
      (data.length = 0 → scubapro_g2_device_set_fingerprint timestamp data = (.success, 0)) ∧
      (data.length = 4 →
        scubapro_g2_device_set_fingerprint timestamp data = (.success, array_uint32_le data)) ∧
      (data.length ≠ 0 → data.length ≠ 4 →
        scubapro_g2_device_set_fingerprint timestamp data = (.invalidargs, timestamp)) := by
  intro ts data
  unfold scubapro_g2_device_set_fingerprint
  refine ⟨fun h0 => ?_, fun h4 => ?_, fun h0 h4 => ?_⟩
  · rw [if_neg (by simp [h0]), if_neg (by simp [h0])]
  · rw [if_neg (by simp [h4]), if_pos (by simp [h4])]
  · rw [if_pos ⟨h0, h4⟩]

/-- Witness for C7: the three cases at concrete inputs, with the prior
cursor 7 left unchanged by the 3-byte input. -/
theorem set_fingerprint_cases_witness :
    scubapro_g2_device_set_fingerprint 7 [] = (.success, 0) ∧
    scubapro_g2_device_set_fingerprint 7 [1, 2, 3, 4] = (.success, array_uint32_le [1, 2, 3, 4]) ∧
    scubapro_g2_device_set_fingerprint 7 [1, 2, 3] = (.invalidargs, 7) :=
  ⟨(set_fingerprint_cases 7 []).1 rfl,
   (set_fingerprint_cases 7 [1, 2, 3, 4]).2.1 rfl,
   (set_fingerprint_cases 7 [1, 2, 3]).2.2 (by decide) (by decide)⟩

/-- Counterexample to claim C2 as stated: a command of exactly
PACKET_SIZE - 1 = 63 bytes is not rejected; the transfer writes a frame
(I/O occurs) and completes successfully instead of failing with
InvalidArgument. -/
theorem transfer_63_counterexample :
    (scubapro_g2_transfer ⟨[.success], []⟩ (List.replicate 63 0) 0).written ≠ [] ∧
    scubapro_g2_transfer ⟨[.success], []⟩ (List.replicate 63 0) 0 ≠
      .err .invalidargs ⟨[.success], []⟩ [] ∧
    63 = PACKET_SIZE - 1 := by decide

/-- Claim C2 (amended): the transfer fails with InvalidArgument before any
I/O exactly for command lengths of at least PACKET_SIZE = 64 bytes; every
command strictly shorter than PACKET_SIZE is accepted and sent as exactly
one framed packet, the length byte followed by the command. -/
theorem transfer_size_check :
    ∀ hid command asize,
      (PACKET_SIZE ≤ command.length →
        scubapro_g2_transfer hid command asize = .err .invalidargs hid []) ∧
      (command.length < PACKET_SIZE → hid.writeResults ≠ [] →
        (scubapro_g2_transfer hid command asize).written = [command.length :: command]) := by
  intro hid command asize
  constructor
  · intro hlen
    unfold scubapro_g2_transfer
    rw [if_pos hlen]
  · intro hlen hw
    unfold scubapro_g2_transfer
    rw [if_neg (by omega)]
    cases hrw : hid.writeResults with
    | nil => exact absurd hrw hw
    | cons w ws =>
      simp only
      split
      · rfl
      · split <;> rfl

/-- Witness for C2 (amended): a 64-byte command is rejected with no frame
written, and a 1-byte command is sent as one framed packet. -/
theorem transfer_size_check_witness :
    scubapro_g2_transfer ⟨[.success], []⟩ (List.replicate 64 0) 0 =
      .err .invalidargs ⟨[.success], []⟩ [] ∧
    (scubapro_g2_transfer ⟨[.success], []⟩ [0x10] 1).written = [[1, 0x10]] :=
  ⟨(transfer_size_check ⟨[.success], []⟩ (List.replicate 64 0) 0).1 (by decide),
   (transfer_size_check ⟨[.success], []⟩ [0x10] 1).2 (by decide) (by decide)⟩

/-- Claim C9: foreach coincides with the composition the spec describes,
namely dump into a fresh buffer followed, exactly when the dump succeeds, by
the extraction scan on that buffer with the same callback; on dump failure
the dump's error is returned with no callback invocations. -/
theorem foreach_eq_dump_extract :
    ∀ device hid now m0 allocOk resizeOk cb,
      scubapro_g2_device_foreach device hid now m0 allocOk resizeOk cb =
        foreachSpec device hid now m0 allocOk resizeOk cb := by
  intro device hid now m0 allocOk resizeOk cb
  unfold scubapro_g2_device_foreach foreachSpec
  cases allocOk with
  | false => simp
  | true =>
    simp only [if_true]
    cases h : scubapro_g2_device_dump device hid now m0 true resizeOk [] with
    | none => simp
    | some r =>
      by_cases hs : r.status = .success <;> simp [hs]

/-- Claim C10 evaluated at a failing input: for the 9-byte buffer with the
marker at offset 4, the scan's read of the 4-byte length field at offsets
8..11 leaves the buffer (the bounds-checked read returns none), so the
extraction scan performs an out-of-bounds access. -/
theorem extract_dives_oob_read :
    scubapro_g2_extract_dives [0, 0, 0, 0, 0xa5, 0xa5, 0x5a, 0x5a, 0] (fun _ _ => true) =
      (.oobRead 8 4, []) ∧
    readBytes [0, 0, 0, 0, 0xa5, 0xa5, 0x5a, 0x5a, 0] 8 4 = none ∧
    List.length [0, 0, 0, 0, 0xa5, 0xa5, 0x5a, 0x5a, 0] < 8 + 4 := by decide

/-- On success receive_data assembles exactly the requested number of bytes,
provided every transport packet has the fixed PACKET_SIZE length. -/
theorem receive_data_ok_length :
    ∀ reads size bytes rest, (∀ r ∈ reads, r.packet.length = PACKET_SIZE) →
      receive_data reads size = .ok bytes rest → bytes.length = size := by
  intro reads
  induction reads with
  | nil =>
    intro size bytes rest _ h
    cases size with
    | zero =>
      simp only [receive_data, RecvOutcome.ok.injEq] at h
      simp [← h.1]
    | succ n => simp [receive_data] at h
  | cons r rs ih =>
    intro size bytes rest hwf h
    cases size with
    | zero =>
      simp only [receive_data, RecvOutcome.ok.injEq] at h
      simp [← h.1]
    | succ n =>
      simp only [receive_data] at h
      split at h
      · cases h
      · split at h
        · cases h
        · split at h
          · cases h
          · rename_i hlt
            split at h
            · next bytes1 rest1 heq =>
              cases h
              have hlen1 : bytes1.length = n + 1 - min (r.packet.headD 0) (n + 1) :=
                ih _ _ _ (fun x hx => hwf x (List.mem_cons_of_mem _ hx)) heq
              have hp : r.packet.length = PACKET_SIZE := hwf r (List.mem_cons_self _ _)
              simp only [List.length_append, List.length_take, List.length_drop, hp, hlen1]
              unfold PACKET_SIZE at hlt hp ⊢
              omega
            · cases h
            · cases h

/-- Claim C3: the receive loop fails when a packet's declared payload length
is at least PACKET_SIZE or the transport delivers a number of bytes other
than PACKET_SIZE; for a good packet exactly min(L, remaining) payload bytes
are taken from the packet body, with any excess discarded without error; a
packet with L = 0 contributes nothing and the loop continues; and on success
exactly the requested number of answer bytes has been written. -/
theorem receive_data_spec :
    (∀ reads size bytes rest, (∀ r ∈ reads, r.packet.length = PACKET_SIZE) →
      receive_data reads size = .ok bytes rest → bytes.length = size) ∧
    (∀ r rs size,
      (r.status ≠ .success ∨ r.transferred ≠ PACKET_SIZE ∨
        PACKET_SIZE ≤ r.packet.headD 0) →
      receive_data (r :: rs) (size + 1) = .fail rs) ∧
    (∀ r rs size bytes rest, r.status = .success → r.transferred = PACKET_SIZE →
      r.packet.headD 0 < PACKET_SIZE →
      receive_data (r :: rs) (size + 1) = .ok bytes rest →
      ∃ tail, bytes = (r.packet.drop 1).take (min (r.packet.headD 0) (size + 1)) ++ tail ∧
        receive_data rs (size + 1 - min (r.packet.headD 0) (size + 1)) = .ok tail rest) ∧
    (∀ r rs size, r.status = .success → r.transferred = PACKET_SIZE →
      r.packet.headD 0 = 0 →
      receive_data (r :: rs) (size + 1) = receive_data rs (size + 1)) := by
  refine ⟨receive_data_ok_length, ?_, ?_, ?_⟩
  · intro r rs size hd
    simp only [receive_data]
    by_cases h1 : r.status = .success
    · rw [if_neg (by simp [h1])]
      by_cases h2 : r.transferred = PACKET_SIZE
      · rw [if_neg (by simp [h2])]
        have h3 : PACKET_SIZE ≤ r.packet.headD 0 := by
          rcases hd with a | b | c
          · exact absurd h1 a
          · exact absurd h2 b
          · exact c
        rw [if_pos h3]
      · rw [if_pos h2]
    · rw [if_pos h1]
  · intro r rs size bytes rest h1 h2 h3 h
    simp only [receive_data] at h
    rw [if_neg (by simp [h1]), if_neg (by simp [h2]), if_neg (by omega)] at h
    split at h
    · next bytes1 rest1 heq =>
      cases h
      exact ⟨bytes1, rfl, heq⟩
    · cases h
    · cases h
  · intro r rs size h1 h2 h0
    simp only [receive_data]
    rw [if_neg (by simp [h1]), if_neg (by simp [h2]), if_neg (by rw [h0]; decide), h0]
    simp only [Nat.zero_min, List.take_zero, Nat.sub_zero, List.nil_append]
    cases hr : receive_data rs (size + 1) <;> rfl

/-- Witness for C3: a failing short read, a contributing-nothing packet
followed by a 2-byte payload assembled to exactly the requested 2 bytes, and
the step characterization on the 2-byte packet. -/
theorem receive_data_spec_witness :
    receive_data [⟨.success, 63, List.replicate 64 0⟩] 1 = .fail [] ∧
    receive_data [⟨.success, 64, 0 :: List.replicate 63 7⟩,
                  ⟨.success, 64, 2 :: 9 :: 9 :: List.replicate 61 0⟩] 2 =
      receive_data [⟨.success, 64, 2 :: 9 :: 9 :: List.replicate 61 0⟩] 2 ∧
    ([9, 9] : List Nat).length = 2 := by
  refine ⟨?_, ?_, ?_⟩
  · exact receive_data_spec.2.1 ⟨.success, 63, List.replicate 64 0⟩ [] 0
      (Or.inr (Or.inl (by decide)))
  · exact receive_data_spec.2.2.2 ⟨.success, 64, 0 :: List.replicate 63 7⟩
      [⟨.success, 64, 2 :: 9 :: 9 :: List.replicate 61 0⟩] 1 rfl rfl rfl
  · exact receive_data_spec.1 [⟨.success, 64, 0 :: List.replicate 63 7⟩,
      ⟨.success, 64, 2 :: 9 :: 9 :: List.replicate 61 0⟩] 2 [9, 9] []
      (by decide) (by decide)


/-- Step equation: the cursor position holds no marker, so the loop moves
down one byte. -/
theorem extractLoop_step_nomarker (data : List Nat) (cb : List Nat → List Nat → Bool)
    (fuel previous c : Nat) (w : List Nat)
    (hw : readBytes data c 4 = some w) (hwh : w ≠ header) :
    extractLoop data cb (fuel + 1) previous (c + 1) = extractLoop data cb fuel previous c := by
  simp only [extractLoop]
  rw [if_neg (by omega : ¬(c + 1 = 0))]
  simp only [Nat.add_sub_cancel, hw]
  rw [if_neg hwh]

/-- Step equation: the 4-byte marker comparison itself leaves the buffer. -/
theorem extractLoop_step_oobMarker (data : List Nat) (cb : List Nat → List Nat → Bool)
    (fuel previous c : Nat) (hw : readBytes data c 4 = none) :
    extractLoop data cb (fuel + 1) previous (c + 1) = (.oobRead c 4, []) := by
  simp only [extractLoop]
  rw [if_neg (by omega : ¬(c + 1 = 0))]
  simp only [Nat.add_sub_cancel, hw]

/-- Step equation: marker matched but the 4-byte length field leaves the
buffer. -/
theorem extractLoop_step_oobLen (data : List Nat) (cb : List Nat → List Nat → Bool)
    (fuel previous c : Nat)
    (hw : readBytes data c 4 = some header) (hlb : readBytes data (c + 4) 4 = none) :
    extractLoop data cb (fuel + 1) previous (c + 1) = (.oobRead (c + 4) 4, []) := by
  simp only [extractLoop]
  rw [if_neg (by omega : ¬(c + 1 = 0))]
  simp only [Nat.add_sub_cancel, hw, if_true, hlb]

/-- Step equation: marker matched and the record end overruns the bound, so
the scan stops with DataFormat. -/
theorem extractLoop_step_dataformat (data : List Nat) (cb : List Nat → List Nat → Bool)
    (fuel previous c : Nat) (lenBytes : List Nat)
    (hw : readBytes data c 4 = some header) (hlb : readBytes data (c + 4) 4 = some lenBytes)
    (hov : previous < u32 (c + array_uint32_le lenBytes)) :
    extractLoop data cb (fuel + 1) previous (c + 1) = (.ok .dataformat, []) := by
  simp only [extractLoop]
  rw [if_neg (by omega : ¬(c + 1 = 0))]
  simp only [Nat.add_sub_cancel, hw, if_true, hlb]
  rw [if_pos hov]

/-- Step equation: the record view itself leaves the buffer. -/
theorem extractLoop_step_oobPayload (data : List Nat) (cb : List Nat → List Nat → Bool)
    (fuel previous c : Nat) (lenBytes : List Nat)
    (hw : readBytes data c 4 = some header) (hlb : readBytes data (c + 4) 4 = some lenBytes)
    (hov : ¬previous < u32 (c + array_uint32_le lenBytes))
    (hp : readBytes data c (array_uint32_le lenBytes) = none) :
    extractLoop data cb (fuel + 1) previous (c + 1) =
      (.oobRead c (array_uint32_le lenBytes), []) := by
  simp only [extractLoop]
  rw [if_neg (by omega : ¬(c + 1 = 0))]
  simp only [Nat.add_sub_cancel, hw, if_true, hlb]
  rw [if_neg hov]
  simp only [hp]

/-- Step equation: the 4-byte fingerprint view leaves the buffer. -/
theorem extractLoop_step_oobFingerprint (data : List Nat) (cb : List Nat → List Nat → Bool)
    (fuel previous c : Nat) (lenBytes payload : List Nat)
    (hw : readBytes data c 4 = some header) (hlb : readBytes data (c + 4) 4 = some lenBytes)
    (hov : ¬previous < u32 (c + array_uint32_le lenBytes))
    (hp : readBytes data c (array_uint32_le lenBytes) = some payload)
    (hf : readBytes data (c + 8) 4 = none) :
    extractLoop data cb (fuel + 1) previous (c + 1) = (.oobRead (c + 8) 4, []) := by
  simp only [extractLoop]
  rw [if_neg (by omega : ¬(c + 1 = 0))]
  simp only [Nat.add_sub_cancel, hw, if_true, hlb]
  rw [if_neg hov]
  simp only [hp, hf]

/-- Step equation: the callback declines the record, so the scan stops with
success after this single invocation. -/
theorem extractLoop_step_stop (data : List Nat) (cb : List Nat → List Nat → Bool)
    (fuel previous c : Nat) (lenBytes payload fp : List Nat)
    (hw : readBytes data c 4 = some header) (hlb : readBytes data (c + 4) 4 = some lenBytes)
    (hov : ¬previous < u32 (c + array_uint32_le lenBytes))
    (hp : readBytes data c (array_uint32_le lenBytes) = some payload)
    (hf : readBytes data (c + 8) 4 = some fp)
    (hcb : cb payload fp = false) :
    extractLoop data cb (fuel + 1) previous (c + 1) =
      (.ok .success, [⟨c, array_uint32_le lenBytes, payload, fp⟩]) := by
  simp only [extractLoop]
  rw [if_neg (by omega : ¬(c + 1 = 0))]
  simp only [Nat.add_sub_cancel, hw, if_true, hlb]
  rw [if_neg hov]
  simp only [hp, hf]
  rw [if_neg (by simp [hcb])]

/-- Step equation: the callback accepts the record, so the scan records the
invocation and resumes 4 bytes below the marker with the bound moved to the
marker's start. -/
theorem extractLoop_step_cont (data : List Nat) (cb : List Nat → List Nat → Bool)
    (fuel previous c : Nat) (lenBytes payload fp : List Nat)
    (hw : readBytes data c 4 = some header) (hlb : readBytes data (c + 4) 4 = some lenBytes)
    (hov : ¬previous < u32 (c + array_uint32_le lenBytes))
    (hp : readBytes data c (array_uint32_le lenBytes) = some payload)
    (hf : readBytes data (c + 8) 4 = some fp)
    (hcb : cb payload fp = true) :
    extractLoop data cb (fuel + 1) previous (c + 1) =
      ((extractLoop data cb fuel c (if 4 ≤ c then c - 4 else 0)).1,
        ⟨c, array_uint32_le lenBytes, payload, fp⟩ ::
          (extractLoop data cb fuel c (if 4 ≤ c then c - 4 else 0)).2) := by
  simp only [extractLoop]
  rw [if_neg (by omega : ¬(c + 1 = 0))]
  simp only [Nat.add_sub_cancel, hw, if_true, hlb]
  rw [if_neg hov]
  simp only [hp, hf]
  rw [if_pos hcb]

/-- A successful bounds-checked read stays inside the buffer. -/
theorem readBytes_some_le (data : List Nat) (off n : Nat) (l : List Nat)
    (h : readBytes data off n = some l) : off + n ≤ data.length := by
  unfold readBytes at h
  split at h
  · assumption
  · exact Option.noConfusion h

/-- Loop invariant of the extraction scan, for buffers whose size fits the C
unsigned int range: every yielded record starts below the cursor and ends at
or before `previous` (a yielded record's view is in bounds, so its record
end cannot wrap and the 32-bit check coincides with the exact one), the
yielded records are pairwise ordered (each later record ends at or before
every earlier record's start and starts strictly below it), and a DataFormat
outcome exhibits a matched marker whose record end, in 32-bit arithmetic,
overruns the bound in force when it was found. -/
theorem extractLoop_ordered (data : List Nat) (cb : List Nat → List Nat → Bool) :
    ∀ fuel previous current, current ≤ fuel → (current = 0 ∨ current + 4 ≤ previous) →
      previous ≤ data.length → data.length < 4294967296 →
      (∀ i ∈ (extractLoop data cb fuel previous current).2,
          i.start < current ∧ i.start + i.len ≤ previous) ∧
      List.Pairwise (fun a b => b.start + b.len ≤ a.start ∧ b.start < a.start)
        (extractLoop data cb fuel previous current).2 ∧
      ((extractLoop data cb fuel previous current).1 = .ok .dataformat →
        ∃ c l, readBytes data c 4 = some header ∧ lenAt data c = some l ∧
          prevAfter previous (extractLoop data cb fuel previous current).2 < u32 (c + l) ∧
          c + 5 ≤ prevAfter previous (extractLoop data cb fuel previous current).2) := by
  intro fuel
  induction fuel with
  | zero =>
    intro previous current _ _ _ _
    exact ⟨by simp [extractLoop], by simp [extractLoop], by simp [extractLoop]⟩
  | succ fuel ih =>
    intro previous current hle hinv hprev hsize
    cases current with
    | zero =>
      exact ⟨by simp [extractLoop], by simp [extractLoop], by simp [extractLoop]⟩
    | succ c =>
      have hinv4 : c + 5 ≤ previous := by
        rcases hinv with h | h
        · exact absurd h (Nat.succ_ne_zero c)
        · omega
      cases hw : readBytes data c 4 with
      | none =>
        rw [extractLoop_step_oobMarker data cb fuel previous c hw]
        exact ⟨by simp, by simp, by simp⟩
      | some w =>
        by_cases hwh : w = header
        · subst hwh
          cases hlb : readBytes data (c + 4) 4 with
          | none =>
            rw [extractLoop_step_oobLen data cb fuel previous c hw hlb]
            exact ⟨by simp, by simp, by simp⟩
          | some lenBytes =>
            by_cases hov : previous < u32 (c + array_uint32_le lenBytes)
            · rw [extractLoop_step_dataformat data cb fuel previous c lenBytes hw hlb hov]
              refine ⟨by simp, by simp,
                fun _ => ⟨c, array_uint32_le lenBytes, hw, ?_, ?_, ?_⟩⟩
              · unfold lenAt
                rw [hlb]
                rfl
              · simpa [prevAfter] using hov
              · simpa [prevAfter] using hinv4
            · cases hp : readBytes data c (array_uint32_le lenBytes) with
              | none =>
                rw [extractLoop_step_oobPayload data cb fuel previous c lenBytes hw hlb hov hp]
                exact ⟨by simp, by simp, by simp⟩
              | some payload =>
                cases hf : readBytes data (c + 8) 4 with
                | none =>
                  rw [extractLoop_step_oobFingerprint data cb fuel previous c lenBytes
                    payload hw hlb hov hp hf]
                  exact ⟨by simp, by simp, by simp⟩
                | some fp =>
                  have hbound := readBytes_some_le data c (array_uint32_le lenBytes) payload hp
                  have hnw : u32 (c + array_uint32_le lenBytes) = c + array_uint32_le lenBytes :=
                    Nat.mod_eq_of_lt (by omega)
                  have hce : c + array_uint32_le lenBytes ≤ previous := by
                    rw [hnw] at hov
                    omega
                  cases hcb : cb payload fp with
                  | false =>
                    rw [extractLoop_step_stop data cb fuel previous c lenBytes payload fp
                      hw hlb hov hp hf hcb]
                    refine ⟨?_, by simp, by simp⟩
                    intro i hi
                    rcases List.mem_singleton.mp hi with rfl
                    refine ⟨?_, ?_⟩
                    · show c < c + 1
                      omega
                    · show c + array_uint32_le lenBytes ≤ previous
                      omega
                  | true =>
                    rw [extractLoop_step_cont data cb fuel previous c lenBytes payload fp
                      hw hlb hov hp hf hcb]
                    have hn : (if 4 ≤ c then c - 4 else 0) ≤ c := by split <;> omega
                    have hinvnext : (if 4 ≤ c then c - 4 else 0) = 0 ∨
                        (if 4 ≤ c then c - 4 else 0) + 4 ≤ c := by
                      split <;> omega
                    have hcle : c ≤ data.length := by
                      have := readBytes_some_le data c 4 header hw
                      omega
                    obtain ⟨A, B, C⟩ := ih c (if 4 ≤ c then c - 4 else 0) (by omega)
                      hinvnext hcle hsize
                    refine ⟨?_, ?_, ?_⟩
                    · intro i hi
                      rcases List.mem_cons.mp hi with rfl | hi2
                      · refine ⟨?_, ?_⟩
                        · show c < c + 1
                          omega
                        · show c + array_uint32_le lenBytes ≤ previous
                          omega
                      · obtain ⟨ha, hb⟩ := A i hi2
                        exact ⟨by omega, by omega⟩
                    · refine List.pairwise_cons.mpr ⟨?_, B⟩
                      intro b hb
                      obtain ⟨ha, hb2⟩ := A b hb
                      refine ⟨hb2, ?_⟩
                      show b.start < c
                      omega
                    · intro hdf
                      obtain ⟨c2, l2, h1, h2, h3, h4⟩ := C hdf
                      exact ⟨c2, l2, h1, h2, h3, h4⟩
        · rw [extractLoop_step_nomarker data cb fuel previous c w hw hwh]
          obtain ⟨A, B, C⟩ := ih previous c (by omega) (by omega) hprev hsize
          refine ⟨?_, B, C⟩
          intro i hi
          obtain ⟨ha, hb⟩ := A i hi
          exact ⟨by omega, hb⟩

/-- Concrete buffer with one marker at offset 0 whose declared record length
20 overruns the 13-byte buffer. -/
def exBad : List Nat := [0xa5, 0xa5, 0x5a, 0x5a, 20, 0, 0, 0, 0, 0, 0, 0, 0]

/-- Concrete buffer holding exactly one well-formed record: marker at 0,
declared length 13 covering the whole buffer, fingerprint bytes 1 2 3 4. -/
def exOne : List Nat := [0xa5, 0xa5, 0x5a, 0x5a, 13, 0, 0, 0, 1, 2, 3, 4, 9]

/-- Callback accepting every record. -/
def cbTrue : List Nat → List Nat → Bool := fun _ _ => true

/-- Callback declining every record. -/
def cbFalse : List Nat → List Nat → Bool := fun _ _ => false

/-- Buffer of 16 bytes with the marker at offset 4 and length field
0xFFFFFFFC: in the C 32-bit arithmetic the record end 4 + 0xFFFFFFFC wraps
to 0, so the overrun check passes although the record overruns the buffer
by almost 4 GiB. -/
def exWrap : List Nat :=
  [0, 0, 0, 0, 0xa5, 0xa5, 0x5a, 0x5a, 0xfc, 0xff, 0xff, 0xff, 0, 0, 0, 0]

/-- Counterexample to claim C1 as stated: on exWrap the scan matches the
marker at offset 4 whose record end 4 + 4294967292 exceeds previous = 16,
yet the scan does not fail with DataFormat — the wrapped 32-bit sum 0 passes
the check and the scan goes on to form the overrunning record view, which
the bounds-checked model reports as an out-of-bounds access (in the C, the
callback is invoked with a view overrunning the buffer by almost 4 GiB). -/
theorem extract_wrap_counterexample :
    readBytes exWrap 4 4 = some header ∧
    lenAt exWrap 4 = some 4294967292 ∧
    exWrap.length < 4 + 4294967292 ∧
    u32 (4 + 4294967292) = 0 ∧
    (scubapro_g2_extract_dives exWrap cbTrue).1 = .oobRead 4 4294967292 ∧
    (scubapro_g2_extract_dives exWrap cbTrue).1 ≠ .ok .dataformat := by decide

/-- Claim C1 (amended): for every input buffer whose size is within the C
unsigned int range, the extraction scan yields records pairwise in strictly
decreasing start-offset order with non-overlapping ranges (each later record
ends at or before every earlier record's start); a DataFormat failure
exhibits a matched marker whose little-endian length field makes the record
end, computed in 32-bit unsigned arithmetic as the C does, exceed the bound
of the not-yet-consumed region; and whenever the matched marker at the
cursor has a record end whose 32-bit value exceeds `previous`, the loop
stops at once with DataFormat, yielding no further records. -/
theorem scubapro_g2_extract_dives_ordering :
    ∀ data cb, data.length < 4294967296 →
      List.Pairwise (fun a b => b.start + b.len ≤ a.start ∧ b.start < a.start)
        (scubapro_g2_extract_dives data cb).2 ∧
      ((scubapro_g2_extract_dives data cb).1 = .ok .dataformat →
        ∃ c l, readBytes data c 4 = some header ∧ lenAt data c = some l ∧
          prevAfter data.length (scubapro_g2_extract_dives data cb).2 < u32 (c + l)) ∧
      (∀ fuel previous c lenBytes, readBytes data c 4 = some header →
        readBytes data (c + 4) 4 = some lenBytes →
        previous < u32 (c + array_uint32_le lenBytes) →
        extractLoop data cb (fuel + 1) previous (c + 1) = (.ok .dataformat, [])) := by
  intro data cb hsize
  have hstart : (if 4 ≤ data.length then data.length - 4 else 0) = 0 ∨
      (if 4 ≤ data.length then data.length - 4 else 0) + 4 ≤ data.length := by
    split <;> omega
  obtain ⟨A, B, C⟩ := extractLoop_ordered data cb
    (if 4 ≤ data.length then data.length - 4 else 0) data.length
    (if 4 ≤ data.length then data.length - 4 else 0) (le_refl _) hstart
    (le_refl _) hsize
  refine ⟨B, ?_, ?_⟩
  · intro h
    obtain ⟨c, l, h1, h2, h3, _⟩ := C h
    exact ⟨c, l, h1, h2, h3⟩
  · intro fuel previous c lenBytes hw hlb hov
    exact extractLoop_step_dataformat data cb fuel previous c lenBytes hw hlb hov

/-- Witness for C1: on the overrunning buffer the yielded records are
pairwise ordered and the DataFormat failure exhibits its offending marker;
the one-step DataFormat equation instantiated at the same marker. -/
theorem scubapro_g2_extract_dives_ordering_witness :
    List.Pairwise (fun a b => b.start + b.len ≤ a.start ∧ b.start < a.start)
      (scubapro_g2_extract_dives exBad cbTrue).2 ∧
    (∃ c l, readBytes exBad c 4 = some header ∧ lenAt exBad c = some l ∧
      prevAfter exBad.length (scubapro_g2_extract_dives exBad cbTrue).2 < u32 (c + l)) ∧
    extractLoop exBad cbTrue 1 13 1 = (.ok .dataformat, []) :=
  ⟨(scubapro_g2_extract_dives_ordering exBad cbTrue (by decide)).1,
   (scubapro_g2_extract_dives_ordering exBad cbTrue (by decide)).2.1 (by decide),
   (scubapro_g2_extract_dives_ordering exBad cbTrue (by decide)).2.2 0 13 0 [20, 0, 0, 0]
     (by decide) (by decide) (by decide)⟩

/-- Loop invariant of the callback interaction: every recorded invocation
except possibly the last got a true reply, an invocation answered false is
the last one and the loop result is success, and every invocation received
exactly the in-bounds record view at its start offset and the in-bounds
4-byte fingerprint view at start + 8. -/
theorem extractLoop_callback (data : List Nat) (cb : List Nat → List Nat → Bool) :
    ∀ fuel previous current,
      (∀ k (hk : k < (extractLoop data cb fuel previous current).2.length),
        cb (((extractLoop data cb fuel previous current).2.get ⟨k, hk⟩).payload)
           (((extractLoop data cb fuel previous current).2.get ⟨k, hk⟩).fingerprint) = false →
        (extractLoop data cb fuel previous current).2.length = k + 1 ∧
        (extractLoop data cb fuel previous current).1 = .ok .success) ∧
      (∀ i ∈ (extractLoop data cb fuel previous current).2,
        readBytes data i.start i.len = some i.payload ∧
        readBytes data (i.start + 8) 4 = some i.fingerprint) := by
  intro fuel
  induction fuel with
  | zero =>
    intro previous current
    constructor
    · intro k hk
      simp [extractLoop] at hk
    · simp [extractLoop]
  | succ fuel ih =>
    intro previous current
    cases current with
    | zero =>
      constructor
      · intro k hk
        simp [extractLoop] at hk
      · simp [extractLoop]
    | succ c =>
      cases hw : readBytes data c 4 with
      | none =>
        rw [extractLoop_step_oobMarker data cb fuel previous c hw]
        exact ⟨fun k hk => by simp at hk, by simp⟩
      | some w =>
        by_cases hwh : w = header
        · subst hwh
          cases hlb : readBytes data (c + 4) 4 with
          | none =>
            rw [extractLoop_step_oobLen data cb fuel previous c hw hlb]
            exact ⟨fun k hk => by simp at hk, by simp⟩
          | some lenBytes =>
            by_cases hov : previous < u32 (c + array_uint32_le lenBytes)
            · rw [extractLoop_step_dataformat data cb fuel previous c lenBytes hw hlb hov]
              exact ⟨fun k hk => by simp at hk, by simp⟩
            · cases hp : readBytes data c (array_uint32_le lenBytes) with
              | none =>
                rw [extractLoop_step_oobPayload data cb fuel previous c lenBytes hw hlb hov hp]
                exact ⟨fun k hk => by simp at hk, by simp⟩
              | some payload =>
                cases hf : readBytes data (c + 8) 4 with
                | none =>
                  rw [extractLoop_step_oobFingerprint data cb fuel previous c lenBytes
                    payload hw hlb hov hp hf]
                  exact ⟨fun k hk => by simp at hk, by simp⟩
                | some fp =>
                  cases hcb : cb payload fp with
                  | false =>
                    rw [extractLoop_step_stop data cb fuel previous c lenBytes payload fp
                      hw hlb hov hp hf hcb]
                    constructor
                    · intro k hk hcbf
                      have hk0 : k = 0 := by
                        simp only [List.length_singleton] at hk
                        omega
                      subst hk0
                      exact ⟨rfl, rfl⟩
                    · intro i hi
                      rcases List.mem_singleton.mp hi with rfl
                      exact ⟨hp, hf⟩
                  | true =>
                    rw [extractLoop_step_cont data cb fuel previous c lenBytes payload fp
                      hw hlb hov hp hf hcb]
                    obtain ⟨K, V⟩ := ih c (if 4 ≤ c then c - 4 else 0)
                    constructor
                    · intro k hk hcbf
                      cases k with
                      | zero =>
                        have hx : cb payload fp = false := hcbf
                        rw [hcb] at hx
                        simp at hx
                      | succ j =>
                        have hj : j < (extractLoop data cb fuel c
                            (if 4 ≤ c then c - 4 else 0)).2.length := by
                          simp only [List.length_cons] at hk
                          omega
                        obtain ⟨hL, hS⟩ := K j hj hcbf
                        constructor
                        · simp only [List.length_cons, hL]
                        · exact hS
                    · intro i hi
                      rcases List.mem_cons.mp hi with rfl | hi2
                      · exact ⟨hp, hf⟩
                      · exact V i hi2
        · rw [extractLoop_step_nomarker data cb fuel previous c w hw hwh]
          exact ih previous c

/-- Claim C8: if the callback answers false on the k-th discovered record,
the scan has invoked it exactly k times in total and reports success, and
every invocation received the record view starting at the record's start
offset with its declared length together with the 4-byte fingerprint view at
start + 8, both inside the buffer. -/
theorem scubapro_g2_extract_dives_early_stop :
    ∀ data cb,
      (∀ k (hk : k < (scubapro_g2_extract_dives data cb).2.length),
        cb (((scubapro_g2_extract_dives data cb).2.get ⟨k, hk⟩).payload)
           (((scubapro_g2_extract_dives data cb).2.get ⟨k, hk⟩).fingerprint) = false →
        (scubapro_g2_extract_dives data cb).2.length = k + 1 ∧
        (scubapro_g2_extract_dives data cb).1 = .ok .success) ∧
      (∀ i ∈ (scubapro_g2_extract_dives data cb).2,
        readBytes data i.start i.len = some i.payload ∧
        readBytes data (i.start + 8) 4 = some i.fingerprint) := by
  intro data cb
  exact extractLoop_callback data cb (if 4 ≤ data.length then data.length - 4 else 0)
    data.length (if 4 ≤ data.length then data.length - 4 else 0)

/-- Witness for C8: on the single-record buffer with an always-false
callback the scan makes exactly one invocation and reports success. -/
theorem scubapro_g2_extract_dives_early_stop_witness :
    (scubapro_g2_extract_dives exOne cbFalse).2.length = 0 + 1 ∧
    (scubapro_g2_extract_dives exOne cbFalse).1 = .ok .success :=
  (scubapro_g2_extract_dives_early_stop exOne cbFalse).1 0 (by decide) (by decide)

/-- Case analysis of the dump: whenever it returns a result, (a) a
successful result carries the fully staged progress sequence reaching its
maximum, (b) a zero negotiated length means immediate success with an empty
un-resized buffer, no bulk handshake frame and no bulk read, and (c) once
the bulk handshake reply is decoded, a mismatch with length + 4, compared
in 32-bit unsigned arithmetic as the C does, yields the protocol error
without the bulk read, which runs only when that comparison matches. -/
theorem dump_master :
    ∀ device hid now m0 clearOk resizeOk prior r,
      scubapro_g2_device_dump device hid now m0 clearOk resizeOk prior = some r →
      (r.status = .success →
        (∃ L, r.negotiated = some L ∧
          progressEvents r.events =
            (0, m0) :: (9, m0) :: (13, 4 + 9 + (if L = 0 then 0 else L + 4)) ::
            (if L = 0 then [] else [(17, 4 + 9 + (L + 4)), (17 + L, 4 + 9 + (L + 4))])) ∧
        (∀ p, (progressEvents r.events).getLast? = some p → p.1 = p.2) ∧
        List.Chain' (fun a b => a.1 ≤ b.1) (progressEvents r.events)) ∧
      (r.negotiated = some 0 →
        r.status = .success ∧ r.buffer = [] ∧ r.bulkAttempted = false ∧
        ∀ f ∈ r.wrote, f.getD 1 0 ≠ 0xC4) ∧
      (∀ L T, r.negotiated = some L → r.totalReply = some T →
        (T ≠ u32 (L + 4) → r.status = .protocol ∧ r.bulkAttempted = false) ∧
        (r.bulkAttempted = true → T = u32 (L + 4))) := by
  intro device hid now m0 clearOk resizeOk prior r h
  cases clearOk with
  | false =>
    unfold scubapro_g2_device_dump at h
    rw [if_neg Bool.false_ne_true] at h
    cases h
    exact ⟨fun hs => by simp at hs, fun h5 => Option.noConfusion h5,
      fun L T hL _ => Option.noConfusion hL⟩
  | true =>
    unfold scubapro_g2_device_dump at h
    rw [if_pos rfl] at h
    cases h1 : scubapro_g2_transfer hid [0x10] 1 with
    | starved w1 =>
      simp only [h1] at h
      exact Option.noConfusion h
    | err s hid1 w1 =>
      simp only [h1] at h
      cases h
      have hns := transfer_err_ne_success _ _ _ _ _ _ h1
      exact ⟨fun hs => absurd hs hns, fun h5 => Option.noConfusion h5,
        fun L T hL _ => Option.noConfusion hL⟩
    | ok model hid1 w1 =>
      simp only [h1] at h
      cases h2 : scubapro_g2_transfer hid1 [0x14] 4 with
      | starved w2 =>
        simp only [h2] at h
        exact Option.noConfusion h
      | err s hid2 w2 =>
        simp only [h2] at h
        cases h
        have hns := transfer_err_ne_success _ _ _ _ _ _ h2
        exact ⟨fun hs => absurd hs hns, fun h5 => Option.noConfusion h5,
          fun L T hL _ => Option.noConfusion hL⟩
      | ok serial hid2 w2 =>
        simp only [h2] at h
        cases h3 : scubapro_g2_transfer hid2 [0x1A] 4 with
        | starved w3 =>
          simp only [h3] at h
          exact Option.noConfusion h
        | err s hid3 w3 =>
          simp only [h3] at h
          cases h
          have hns := transfer_err_ne_success _ _ _ _ _ _ h3
          exact ⟨fun hs => absurd hs hns, fun h5 => Option.noConfusion h5,
            fun L T hL _ => Option.noConfusion hL⟩
        | ok devtime hid3 w3 =>
          simp only [h3] at h
          cases h4 : scubapro_g2_transfer hid3 (0xC6 :: commandBody device.timestamp) 4 with
          | starved w4 =>
            simp only [h4] at h
            exact Option.noConfusion h
          | err s hid4 w4 =>
            simp only [h4] at h
            cases h
            have hns := transfer_err_ne_success _ _ _ _ _ _ h4
            exact ⟨fun hs => absurd hs hns, fun h5 => Option.noConfusion h5,
              fun L T hL _ => Option.noConfusion hL⟩
          | ok answer1 hid4 w4 =>
            simp only [h4] at h
            by_cases hL : array_uint32_le answer1 = 0
            · simp only [hL, eq_self_iff_true, if_true] at h
              cases h
              have e1 := transfer_ok_written _ _ _ _ _ _ h1
              have e2 := transfer_ok_written _ _ _ _ _ _ h2
              have e3 := transfer_ok_written _ _ _ _ _ _ h3
              have e4 := transfer_ok_written _ _ _ _ _ _ h4
              subst e1 e2 e3 e4
              refine ⟨fun _ => ⟨⟨0, rfl, by simp [progressEvents]⟩, ?_, ?_⟩,
                fun _ => ⟨rfl, rfl, rfl, ?_⟩, fun L T _ hT => Option.noConfusion hT⟩
              · intro p hp
                obtain ⟨p1, p2⟩ := p
                show p1 = p2
                simp [progressEvents] at hp
                omega
              · simp [progressEvents, List.chain'_cons, List.chain'_singleton]
              · intro f hf
                simp at hf
                rcases hf with rfl | rfl | rfl | rfl <;> simp [List.getD, commandBody]
            · rw [if_neg hL] at h
              cases resizeOk with
              | false =>
                rw [if_neg Bool.false_ne_true] at h
                cases h
                exact ⟨fun hs => by simp at hs,
                  fun h5 => absurd (Option.some.inj h5) hL,
                  fun L T hL' hT => Option.noConfusion hT⟩
              | true =>
                rw [if_pos rfl] at h
                cases h5c : scubapro_g2_transfer hid4
                    (0xC4 :: commandBody device.timestamp) 4 with
                | starved w5 =>
                  simp only [h5c] at h
                  exact Option.noConfusion h
                | err s hid5 w5 =>
                  simp only [h5c] at h
                  cases h
                  have hns := transfer_err_ne_success _ _ _ _ _ _ h5c
                  exact ⟨fun hs => absurd hs hns,
                    fun h5 => absurd (Option.some.inj h5) hL,
                    fun L T hL' hT => Option.noConfusion hT⟩
                | ok answer2 hid5 w5 =>
                  simp only [h5c] at h
                  by_cases hT : array_uint32_le answer2 = u32 (array_uint32_le answer1 + 4)
                  · rw [if_pos hT] at h
                    cases h6 : receive_data hid5.reads (array_uint32_le answer1) with
                    | starved =>
                      simp only [h6] at h
                      exact Option.noConfusion h
                    | fail rest =>
                      simp only [h6] at h
                      cases h
                      refine ⟨fun hs => by simp at hs,
                        fun h5 => absurd (Option.some.inj h5) hL,
                        fun L T hL' hT' => ?_⟩
                      have hLL := Option.some.inj hL'
                      have hTT := Option.some.inj hT'
                      subst hLL
                      subst hTT
                      exact ⟨fun hne => absurd hT hne, fun _ => hT⟩
                    | ok bytes rest =>
                      simp only [h6] at h
                      cases h
                      refine ⟨fun _ => ⟨⟨array_uint32_le answer1, rfl, ?_⟩, ?_, ?_⟩,
                        fun h5 => absurd (Option.some.inj h5) hL,
                        fun L T hL' hT' => ?_⟩
                      · simp [progressEvents, hL]
                      · intro p hp
                        obtain ⟨p1, p2⟩ := p
                        show p1 = p2
                        simp [progressEvents, hL, List.getLast?_cons_cons,
                          List.getLast?_singleton] at hp
                        omega
                      · simp [progressEvents, hL, List.chain'_cons, List.chain'_singleton]
                      · have hLL := Option.some.inj hL'
                        have hTT := Option.some.inj hT'
                        subst hLL
                        subst hTT
                        exact ⟨fun hne => absurd hT hne, fun _ => hT⟩
                  · rw [if_neg hT] at h
                    cases h
                    refine ⟨fun hs => by simp at hs,
                      fun h5 => absurd (Option.some.inj h5) hL,
                      fun L T hL' hT' => ?_⟩
                    have hLL := Option.some.inj hL'
                    have hTT := Option.some.inj hT'
                    subst hLL
                    subst hTT
                    exact ⟨fun _ => ⟨rfl, rfl⟩, fun hb => by simp at hb⟩

/-- Claim C4: a successful dump has progress events advancing monotonically
through the stages (9 after the probes, 4 after each negotiation reply,
length after the bulk read), the maximum equals
4 + 9 + (length + 4 when length > 0, else 0) for the negotiated length, and
the final current equals the maximum exactly. -/
theorem dump_progress_reaches_maximum :
    ∀ device hid now m0 clearOk resizeOk prior r,
      scubapro_g2_device_dump device hid now m0 clearOk resizeOk prior = some r →
      r.status = .success →
      (∃ L, r.negotiated = some L ∧
        progressEvents r.events =
          (0, m0) :: (9, m0) :: (13, 4 + 9 + (if L = 0 then 0 else L + 4)) ::
          (if L = 0 then [] else [(17, 4 + 9 + (L + 4)), (17 + L, 4 + 9 + (L + 4))])) ∧
      (∀ p, (progressEvents r.events).getLast? = some p → p.1 = p.2) ∧
      List.Chain' (fun a b => a.1 ≤ b.1) (progressEvents r.events) :=
  fun device hid now m0 clearOk resizeOk prior r h hs =>
    (dump_master device hid now m0 clearOk resizeOk prior r h).1 hs

/-- Claim C5: a dump whose length negotiation decodes to zero returns
success immediately with a cleared, un-resized buffer, never writes the
bulk-transfer handshake frame (opcode 0xC4) and never attempts the bulk
read. -/
theorem dump_zero_length_empty_success :
    ∀ device hid now m0 clearOk resizeOk prior r,
      scubapro_g2_device_dump device hid now m0 clearOk resizeOk prior = some r →
      r.negotiated = some 0 →
      r.status = .success ∧ r.buffer = [] ∧ r.bulkAttempted = false ∧
      ∀ f ∈ r.wrote, f.getD 1 0 ≠ 0xC4 :=
  fun device hid now m0 clearOk resizeOk prior r h h0 =>
    (dump_master device hid now m0 clearOk resizeOk prior r h).2.1 h0

/-- Claim C6 (amended): when the bulk handshake reply decodes to a total
different from (length + 4) mod 2^32 — the comparison the C performs in
unsigned int arithmetic — the dump aborts with the protocol error and the
bulk read is never attempted; the bulk read runs only when the total equals
(length + 4) mod 2^32. -/
theorem dump_total_mismatch_protocol :
    ∀ device hid now m0 clearOk resizeOk prior r L T,
      scubapro_g2_device_dump device hid now m0 clearOk resizeOk prior = some r →
      r.negotiated = some L → r.totalReply = some T →
      (T ≠ u32 (L + 4) → r.status = .protocol ∧ r.bulkAttempted = false) ∧
      (r.bulkAttempted = true → T = u32 (L + 4)) :=
  fun device hid now m0 clearOk resizeOk prior r L T h hL hT =>
    (dump_master device hid now m0 clearOk resizeOk prior r h).2.2 L T hL hT

/-- Read result delivering a 1-byte answer payload (the model probe). -/
def rdModel : ReadResult := ⟨.success, 64, 1 :: 0 :: List.replicate 62 0⟩

/-- Read result delivering the 4-byte little-endian value b (b below 256). -/
def rdWord (b : Nat) : ReadResult :=
  ⟨.success, 64, 4 :: b :: 0 :: 0 :: 0 :: List.replicate 59 0⟩

/-- Read result delivering the single bulk payload byte 0xAB. -/
def rdBulk1 : ReadResult := ⟨.success, 64, 1 :: 0xAB :: List.replicate 62 0⟩

/-- Transport run of a fully successful dump with negotiated length 1. -/
def hidSuccessRun : UsbHid :=
  ⟨List.replicate 5 .success, [rdModel, rdWord 1, rdWord 2, rdWord 1, rdWord 5, rdBulk1]⟩

/-- Transport run whose length negotiation decodes to 0. -/
def hidZeroLenRun : UsbHid :=
  ⟨List.replicate 5 .success, [rdModel, rdWord 1, rdWord 2, rdWord 0]⟩

/-- Transport run whose bulk handshake reply 9 mismatches length 1 + 4. -/
def hidMismatchRun : UsbHid :=
  ⟨List.replicate 5 .success, [rdModel, rdWord 1, rdWord 2, rdWord 1, rdWord 9]⟩

/-- Device session state with cursor 0. -/
def dev0 : G2Device := ⟨0, 0, 0⟩

/-- The result of the successful concrete dump run. -/
def wRes4 : DumpResult :=
  (scubapro_g2_device_dump dev0 hidSuccessRun 0 0 true true []).getD default

/-- The result of the zero-length concrete dump run. -/
def wRes5 : DumpResult :=
  (scubapro_g2_device_dump dev0 hidZeroLenRun 0 0 true true []).getD default

/-- The result of the mismatching-total concrete dump run. -/
def wRes6 : DumpResult :=
  (scubapro_g2_device_dump dev0 hidMismatchRun 0 0 true true []).getD default

/-- Witness for C4: the staged progress sequence of the successful concrete
run, whose last progress event reaches its maximum. -/
theorem dump_progress_reaches_maximum_witness :
    (∃ L, wRes4.negotiated = some L ∧
      progressEvents wRes4.events =
        (0, 0) :: (9, 0) :: (13, 4 + 9 + (if L = 0 then 0 else L + 4)) ::
        (if L = 0 then [] else [(17, 4 + 9 + (L + 4)), (17 + L, 4 + 9 + (L + 4))])) ∧
    (∀ p, (progressEvents wRes4.events).getLast? = some p → p.1 = p.2) ∧
    List.Chain' (fun a b => a.1 ≤ b.1) (progressEvents wRes4.events) :=
  dump_progress_reaches_maximum dev0 hidSuccessRun 0 0 true true [] wRes4
    (by decide) (by decide)

/-- Witness for C5: the zero-length concrete run succeeds with an empty
buffer, no bulk read and no 0xC4 frame. -/
theorem dump_zero_length_empty_success_witness :
    wRes5.status = .success ∧ wRes5.buffer = [] ∧ wRes5.bulkAttempted = false ∧
    ∀ f ∈ wRes5.wrote, f.getD 1 0 ≠ 0xC4 :=
  dump_zero_length_empty_success dev0 hidZeroLenRun 0 0 true true [] wRes5
    (by decide) (by decide)

/-- Witness for C6: the mismatching concrete run (total 9, length 1) ends in
the protocol error with the bulk read never attempted. -/
theorem dump_total_mismatch_protocol_witness :
    (9 ≠ u32 (1 + 4) → wRes6.status = .protocol ∧ wRes6.bulkAttempted = false) ∧
    (wRes6.bulkAttempted = true → 9 = u32 (1 + 4)) :=
  dump_total_mismatch_protocol dev0 hidMismatchRun 0 0 true true [] wRes6 1 9
    (by decide) (by decide) (by decide)

/-- Read result delivering the 4-byte little-endian length 0xFFFFFFFD. -/
def rdLenWrap : ReadResult :=
  ⟨.success, 64, 4 :: 253 :: 255 :: 255 :: 255 :: List.replicate 59 0⟩

/-- Read result delivering the 4-byte little-endian total 1. -/
def rdTotOne : ReadResult :=
  ⟨.success, 64, 4 :: 1 :: 0 :: 0 :: 0 :: List.replicate 59 0⟩

/-- Read result whose transport status is an error, failing the bulk read at
its first packet. -/
def rdFailRead : ReadResult := ⟨.ioerr, 0, []⟩

/-- Transport run negotiating length 0xFFFFFFFD whose handshake reply is the
wrapped total 1; the bulk read then starts and fails at its first packet. -/
def hidWrapRun : UsbHid :=
  ⟨List.replicate 5 .success, [rdModel, rdWord 1, rdWord 2, rdLenWrap, rdTotOne, rdFailRead]⟩

/-- The result of the wrapped-total concrete dump run. -/
def wResWrap : DumpResult :=
  (scubapro_g2_device_dump dev0 hidWrapRun 0 0 true true []).getD default

/-- Counterexample to claim C6 as stated: with negotiated length 0xFFFFFFFD
the C computes length + 4 in unsigned int arithmetic, wrapping to 1, so a
handshake total of 1 — different from the mathematical length + 4 — passes
the check: the dump does not abort with the protocol error and the bulk
payload read is attempted. -/
theorem dump_wrap_counterexample :
    wResWrap.negotiated = some 4294967293 ∧
    wResWrap.totalReply = some 1 ∧
    (1 : Nat) ≠ 4294967293 + 4 ∧
    u32 (4294967293 + 4) = 1 ∧
    wResWrap.status ≠ .protocol ∧
    wResWrap.bulkAttempted = true := by decide
